import Mathlib

/-
Formal model of the racesync schedule engine.

Shallow embedding of the core of the repository:
  - src/shared/utils/dateUtils.ts        (isValidISOString, isRaceLive)
  - src/shared/utils/formatters.ts       (formatCountdown)
  - src/features/schedules/services/ScheduleMerger.ts
      (ScheduleMerger.merge, ScheduleMerger.mergeWithFavorites, RaceDataParser)
  - src/features/schedules/services/AsyncStorageScheduleRepository.ts (isStale)
  - src/features/schedules/hooks/useRaceSchedule.ts / utils/raceFilters (filterByType)
  - src/features/favorites/services/AsyncStorageFavoritesRepository.ts
      (addFavorite, removeFavorite)
  - src/features/calendar/types/CalendarEvent.ts (DEFAULT_PRACTICE_SESSIONS)

Instants are modelled as integers (milliseconds since the epoch, the value of
JavaScript Date.getTime / Date.now).  TypeScript string-literal union types are
modelled as plain strings together with the exact lists of admissible values
that the source validates against.  Asynchronous storage state (the favorite
store) is modelled by explicit state passing: each repository operation maps
the stored favorite list to the new stored favorite list.
-/

set_option autoImplicit false

namespace RaceSync

/-- Race entity, from src/features/schedules/types/Race.ts.  String-literal
union fields (`type`, `tier`, `carClass`, `weatherCondition`, `timeOfDay`,
`licenseRequirement`) are modelled as strings; optional / nullable fields as
`Option`.  `isFavorited` is the optional user-data field used by
ScheduleMerger (`isFavorited?: boolean`); `none` corresponds to the field
being absent (undefined). -/
structure Race where
  id : String
  type : String
  tier : Option String
  trackName : String
  trackConfiguration : Option String
  carClass : String
  startTime : String
  durationMinutes : Int
  weatherCondition : String
  timeOfDay : String
  licenseRequirement : String
  repeatInterval : Option Int
  isLive : Bool
  isFavorited : Option Bool
deriving DecidableEq, Repr

/-- Favorite entity, from src/features/favorites/types/Favorite.ts.
`favoritedAt` is kept as its ISO string. -/
structure Favorite where
  raceId : String
  favoritedAt : String
  notificationEnabled : Bool
deriving DecidableEq, Repr

/-- External date environment: `now` is Date.now(); `parseMs` is date-fns
parseISO followed by getTime, returning `none` when parseISO yields an
Invalid Date (isValid false).  date-fns is an external library, so its
parsing is a parameter of the model rather than re-implemented. -/
structure DateEnv where
  now : Int
  parseMs : String → Option Int

/-- From dateUtils.ts isRaceLive: `now >= start && now <= start + durationMinutes*60*1000`.
The start instant (already parsed to milliseconds) and `now` are explicit. -/
def isRaceLive (now start durationMinutes : Int) : Bool :=
  decide (start ≤ now) && decide (now ≤ start + durationMinutes * 60 * 1000)

/-- The JavaScript emptiness test `value.trim() === ''` of
RaceDataParser.validateRequiredString: a string trims to empty exactly when
all of its characters are whitespace. -/
def isBlank (s : String) : Bool :=
  s.toList.all Char.isWhitespace

/-- The JavaScript `s.endsWith(c)` for a one-character suffix, over the
character list of the string. -/
def strEndsWithChar (s : String) (c : Char) : Bool :=
  match s.toList.reverse with
  | [] => false
  | last :: _ => last == c

/-- From dateUtils.ts isValidISOString: the regular-expression test of a
trailing explicit UTC offset (a sign, two digits, a colon, two digits at the
end of the string), checked on the last six characters. -/
def hasOffsetSuffix (s : String) : Bool :=
  match s.toList.reverse with
  | m2 :: m1 :: colon :: h2 :: h1 :: sign :: _ =>
      (sign == '+' || sign == '-') && h1.isDigit && h2.isDigit &&
        (colon == ':') && m1.isDigit && m2.isDigit
  | _ => false

/-- From dateUtils.ts isValidISOString: non-empty, contains the separator,
carries a timezone (Z suffix or explicit offset), and parses to a valid date. -/
def isValidISOString (env : DateEnv) (dateString : String) : Bool :=
  if dateString == "" then false
  else if !(dateString.toList.contains 'T') then false
  else if !(strEndsWithChar dateString 'Z' || hasOffsetSuffix dateString) then false
  else (env.parseMs dateString).isSome

/-- From formatters.ts formatCountdown.  `diffMs = start - now`; on the
branches where Math.floor is applied the dividend is non-negative, so floor
division coincides with natural-number division on `diffMs.toNat`. -/
def formatCountdown (now start : Int) : String :=
  let diffMs := start - now
  if diffMs < 0 then "Live"
  else if diffMs < 60000 then "Starting now"
  else
    let totalMinutes := diffMs.toNat / 60000
    let totalHours := totalMinutes / 60
    let totalDays := totalHours / 24
    if totalDays > 0 then
      toString totalDays ++ "d " ++ toString (totalHours % 24) ++ "h"
    else if totalHours > 0 then
      toString totalHours ++ "h " ++ toString (totalMinutes % 60) ++ "m"
    else
      toString totalMinutes ++ "m"

/-- From AsyncStorageScheduleRepository.isStale: stale when no last-updated
timestamp exists, or when the age strictly exceeds STALE_THRESHOLD_MS. -/
def isStale (now : Int) (lastUpdated : Option Int) : Bool :=
  match lastUpdated with
  | none => true
  | some t => decide (now - t > 24 * 60 * 60 * 1000)

/-- The id-keyed Map built by `existingRaces.forEach((race) => map.set(race.id, race))`:
repeated `set` calls make the LAST occurrence of an id win. -/
def lastById (rs : List Race) (i : String) : Option Race :=
  rs.foldl (fun acc r => if r.id = i then some r else acc) none

/-- The per-element body of ScheduleMerger.merge: look up the fresh race id in
the existing-race map and, on a hit, preserve the user field `isFavorited`. -/
def mergeOne (existingRaces : List Race) (newRace : Race) : Race :=
  match lastById existingRaces newRace.id with
  | some existingRace => { newRace with isFavorited := existingRace.isFavorited }
  | none => newRace

/-- ScheduleMerger.merge: map the fresh list, preserving `isFavorited` from
the existing race with the same id when present. -/
def merge (existingRaces newRaces : List Race) : List Race :=
  newRaces.map (mergeOne existingRaces)

/-- AsyncStorageFavoritesRepository.removeFavorite on the stored list:
`favorites.filter((f) => f.raceId !== raceId)`. -/
def removeFavorite (favs : List Favorite) (raceId : String) : List Favorite :=
  favs.filter (fun f => f.raceId != raceId)

/-- AsyncStorageFavoritesRepository.addFavorite on the stored list: when a
favorite with the same raceId exists the list is written back unchanged,
otherwise the favorite is pushed at the end. -/
def addFavorite (favs : List Favorite) (favorite : Favorite) : List Favorite :=
  if favs.any (fun f => f.raceId == favorite.raceId) then favs
  else favs ++ [favorite]

/-- The cascade-delete loop of ScheduleMerger.mergeWithFavorites: iterate over
the snapshot of the favorites, and for each favorite whose raceId is not a
fresh race id, remove it from the current store state. -/
def cascadeRemove (newRaceIds : List String) (snapshot st : List Favorite) : List Favorite :=
  match snapshot with
  | [] => st
  | f :: rest =>
      cascadeRemove newRaceIds rest
        (if newRaceIds.contains f.raceId then st else removeFavorite st f.raceId)

/-- ScheduleMerger.mergeWithFavorites.  The favorites repository is modelled
by explicit state passing: `favorites` is the stored list read by
getFavorites, and the second component of the result is the stored list after
the cascade removals.  `existingRaces` is a parameter of the source method but
is not used by its body. -/
def mergeWithFavorites (_existingRaces newRaces : List Race) (favorites : List Favorite) :
    List Race × List Favorite :=
  let favoriteRaceIds := favorites.map Favorite.raceId
  let newRaceIds := newRaces.map Race.id
  let favoritesAfter := cascadeRemove newRaceIds favorites favorites
  let merged := newRaces.map (fun newRace =>
    { newRace with isFavorited := some (favoriteRaceIds.contains newRace.id) })
  (merged, favoritesAfter)

/-- Raw race data from JSON before validation (RawRaceData in ScheduleMerger.ts).
`durationMinutes` and `repeatInterval` are integral here; the source coerces
with Number() and rejects non-finite values, which the integer model cannot
represent. -/
structure RawRaceData where
  id : String
  type : String
  tier : Option String
  trackName : String
  trackConfiguration : Option String
  carClass : String
  startTime : String
  durationMinutes : Int
  weatherCondition : String
  timeOfDay : String
  licenseRequirement : String
  repeatInterval : Option Int
deriving DecidableEq, Repr

/-- RaceDataParser.validateEnum: accept exactly the listed values, otherwise
raise a validation error. -/
def validateEnum (value : String) (validValues : List String) (field : String) :
    Except String String :=
  if validValues.contains value then Except.ok value
  else Except.error (field ++ " must be one of: " ++ String.intercalate ", " validValues)

/-- RaceDataParser.validateAndTransform: field-by-field validation in source
order; the first failing check aborts with a validation error.  The required
string fields must be non-empty after trimming.  tier is validated only when
present.  isLive is computed from the current time. -/
def validateAndTransform (env : DateEnv) (raw : RawRaceData) : Except String Race := do
  if isBlank raw.id then
    throw "id is required and must be a non-empty string"
  if isBlank raw.trackName then
    throw "trackName is required and must be a non-empty string"
  let type ← validateEnum raw.type ["daily", "weekly", "special"] "type"
  let carClass ← validateEnum raw.carClass ["LMP2", "Hypercar", "LMGT3", "Multi-class"] "carClass"
  let weatherCondition ←
    validateEnum raw.weatherCondition ["Clear", "Dynamic", "Real Weather"] "weatherCondition"
  let timeOfDay ←
    validateEnum raw.timeOfDay
      ["Morning", "Afternoon", "Sunset", "Night", "Full Day Cycle"] "timeOfDay"
  let licenseRequirement ←
    validateEnum raw.licenseRequirement ["Bronze", "Silver", "Gold"] "licenseRequirement"
  let tier ← match raw.tier with
    | none => pure (none : Option String)
    | some t => do
        let tv ← validateEnum t ["beginner", "intermediate", "advanced"] "tier"
        pure (some tv)
  if !(isValidISOString env raw.startTime) then
    throw "Invalid startTime format. Must be ISO 8601 UTC string."
  if raw.durationMinutes ≤ 0 then
    throw "durationMinutes must be a positive number"
  match raw.repeatInterval with
    | some ri =>
        if ri ≤ 0 then throw "repeatInterval must be a positive number or null" else pure ()
    | none => pure ()
  let start := (env.parseMs raw.startTime).getD 0
  let isLive := isRaceLive env.now start raw.durationMinutes
  pure { id := raw.id, type := type, tier := tier, trackName := raw.trackName,
         trackConfiguration := raw.trackConfiguration, carClass := carClass,
         startTime := raw.startTime, durationMinutes := raw.durationMinutes,
         weatherCondition := weatherCondition, timeOfDay := timeOfDay,
         licenseRequirement := licenseRequirement, repeatInterval := raw.repeatInterval,
         isLive := isLive, isFavorited := none }

/-- RaceDataParser.parse: `data.map(item => validateAndTransform(item, index))`
in JavaScript evaluates in order and propagates the first thrown validation
error, so the whole batch fails on the first invalid record. -/
def parse (env : DateEnv) : List RawRaceData → Except String (List Race)
  | [] => Except.ok []
  | item :: rest =>
      match validateAndTransform env item with
      | Except.error e => Except.error e
      | Except.ok r =>
          match parse env rest with
          | Except.error e => Except.error e
          | Except.ok rs => Except.ok (r :: rs)

/-- filterByType from src/features/schedules/utils/raceFilters (in
useRaceSchedule.ts): the selector is one of "all", "daily", "weekly",
"special"; "all" returns the input array itself, otherwise keep the races
whose `type` field equals the selector. -/
def filterByType (races : List Race) (filter : String) : List Race :=
  if filter == "all" then races
  else races.filter (fun race => race.type == filter)

/-- Practice session configuration entries of DEFAULT_PRACTICE_SESSIONS
(CalendarEvent.ts). -/
structure SessionConfig where
  sessionType : String
  durationMinutes : Int
  scheduleOffsetDays : Int
deriving DecidableEq, Repr

/-- DEFAULT_PRACTICE_SESSIONS from CalendarEvent.ts. -/
def DEFAULT_PRACTICE_SESSIONS : List SessionConfig :=
  [ { sessionType := "Track Familiarization", durationMinutes := 30, scheduleOffsetDays := 3 },
    { sessionType := "Qualifying Simulation", durationMinutes := 45, scheduleOffsetDays := 2 },
    { sessionType := "Race Pace", durationMinutes := 45, scheduleOffsetDays := 1 } ]

/-- Derived practice session (PracticeSession in CalendarEvent.ts), with the
suggested start kept as an instant in milliseconds. -/
structure PracticeSession where
  raceId : String
  sessionType : String
  durationMinutes : Int
  scheduleOffsetDays : Int
  suggestedStart : Int
  weatherCondition : String
  timeOfDay : String
deriving DecidableEq, Repr

/-- Modelled from the spec: the PracticeSessionGenerator service
(generateSessionsForRace, task T074) is not present under the source tree,
only its configuration DEFAULT_PRACTICE_SESSIONS and the PracticeSession type
are.  Design section 4.6 defines the generator: one session per configuration
entry, `suggestedStart = event.start - offsetDays * 24h`, weather and
time-of-day descriptors copied verbatim from the parent event.  `startMs` is
the parsed start instant of the race. -/
def generatePracticeSessions (race : Race) (startMs : Int) : List PracticeSession :=
  DEFAULT_PRACTICE_SESSIONS.map (fun c =>
    { raceId := race.id, sessionType := c.sessionType,
      durationMinutes := c.durationMinutes, scheduleOffsetDays := c.scheduleOffsetDays,
      suggestedStart := startMs - c.scheduleOffsetDays * (24 * 60 * 60 * 1000),
      weatherCondition := race.weatherCondition, timeOfDay := race.timeOfDay })

/-- A race value with the given id and isFavorited flag, all other fields
fixed to admissible values; used for concrete instantiations. -/
def mkRace (i : String) (fav : Option Bool) : Race :=
  { id := i, type := "daily", tier := some "beginner", trackName := "Spa",
    trackConfiguration := none, carClass := "LMP2",
    startTime := "2024-03-15T14:30:00Z", durationMinutes := 60,
    weatherCondition := "Clear", timeOfDay := "Morning",
    licenseRequirement := "Bronze", repeatInterval := none,
    isLive := false, isFavorited := fav }

/-- A date environment for concrete instantiations: every string parses to
instant 0 and the current time is before that instant. -/
def testEnv : DateEnv := { now := -1, parseMs := fun _ => some 0 }

/-- A raw record whose category is "weekly" while carrying both a tier and a
repeat interval; everything else is admissible. -/
def badWeeklyRaw : RawRaceData :=
  { id := "r1", type := "weekly", tier := some "beginner", trackName := "Spa",
    trackConfiguration := none, carClass := "LMP2", startTime := "2024-03-15T14:30:00Z",
    durationMinutes := 60, weatherCondition := "Clear", timeOfDay := "Morning",
    licenseRequirement := "Bronze", repeatInterval := some 40 }

/-- A raw record with an invalid category enum value. -/
def badTypeRaw : RawRaceData :=
  { id := "r2", type := "sprint", tier := none, trackName := "Monza",
    trackConfiguration := none, carClass := "LMP2", startTime := "2024-03-15T14:30:00Z",
    durationMinutes := 60, weatherCondition := "Clear", timeOfDay := "Morning",
    licenseRequirement := "Bronze", repeatInterval := none }

/-- Claim C1: for every event and instant `now`, isLive is true exactly when
`now ≥ start` and `now ≤ start + duration`, with both boundaries inclusive;
it is true at exactly `start` and at exactly `start + duration`, and false one
unit (one millisecond) before `start` and one unit after `start + duration`. -/
theorem isRaceLive_boundaries (start dur : Int) (h : 0 < dur) :
    (∀ now : Int, isRaceLive now start dur = true ↔
        start ≤ now ∧ now ≤ start + dur * 60 * 1000) ∧
    isRaceLive start start dur = true ∧
    isRaceLive (start + dur * 60 * 1000) start dur = true ∧
    isRaceLive (start - 1) start dur = false ∧
    isRaceLive (start + dur * 60 * 1000 + 1) start dur = false := by
  have key : ∀ now : Int, isRaceLive now start dur = true ↔
      start ≤ now ∧ now ≤ start + dur * 60 * 1000 := by
    intro now
    simp [isRaceLive]
  refine ⟨key, ?_, ?_, ?_, ?_⟩
  · rw [key]; omega
  · rw [key]; omega
  · rw [Bool.eq_false_iff]
    intro hc
    have := (key _).mp hc
    omega
  · rw [Bool.eq_false_iff]
    intro hc
    have := (key _).mp hc
    omega

/-- Witness for C1 at start 0, duration 1 minute. -/
theorem isRaceLive_boundaries_witness : isRaceLive 0 0 1 = true :=
  (isRaceLive_boundaries 0 1 (by decide)).2.1

/-- Claim C2: countdown bands with `diff = start - now`: "Live" when diff < 0,
"Starting now" when 0 ≤ diff < 60s, minutes format when diff < 1h, hours and
minutes when diff < 24h, otherwise days and hours, all truncation by floor. -/
theorem formatCountdown_bands (now start : Int) :
    (start - now < 0 → formatCountdown now start = "Live") ∧
    (0 ≤ start - now ∧ start - now < 60000 →
      formatCountdown now start = "Starting now") ∧
    (60000 ≤ start - now ∧ start - now < 3600000 →
      formatCountdown now start = toString ((start - now).toNat / 60000) ++ "m") ∧
    (3600000 ≤ start - now ∧ start - now < 86400000 →
      formatCountdown now start =
        toString ((start - now).toNat / 3600000) ++ "h " ++
          toString ((start - now).toNat / 60000 % 60) ++ "m") ∧
    (86400000 ≤ start - now →
      formatCountdown now start =
        toString ((start - now).toNat / 86400000) ++ "d " ++
          toString ((start - now).toNat / 3600000 % 24) ++ "h") := by
  refine ⟨?_, ?_, ?_, ?_, ?_⟩ <;> intro h
  · simp only [formatCountdown]
    rw [if_pos h]
  · simp only [formatCountdown]
    rw [if_neg (by omega), if_pos (by omega)]
  · simp only [formatCountdown]
    rw [if_neg (by omega), if_neg (by omega), if_neg (by omega), if_neg (by omega)]
  · simp only [formatCountdown]
    rw [if_neg (by omega), if_neg (by omega), if_neg (by omega), if_pos (by omega)]
    have e1 : (start - now).toNat / 60000 / 60 = (start - now).toNat / 3600000 := by
      omega
    rw [e1]
  · simp only [formatCountdown]
    rw [if_neg (by omega), if_neg (by omega), if_pos (by omega)]
    have e2 : (start - now).toNat / 60000 / 60 / 24 = (start - now).toNat / 86400000 := by
      omega
    have e1 : (start - now).toNat / 60000 / 60 % 24 = (start - now).toNat / 3600000 % 24 := by
      omega
    rw [e2, e1]

/-- Witness for C2 at the sample offsets of the claim: 150 minutes,
45 minutes, 30 seconds, minus one millisecond, 54 hours. -/
theorem formatCountdown_bands_witness :
    formatCountdown 0 9000000 = "2h 30m" ∧
    formatCountdown 0 2700000 = "45m" ∧
    formatCountdown 0 30000 = "Starting now" ∧
    formatCountdown 0 (-1) = "Live" ∧
    formatCountdown 0 194400000 = "2d 6h" := by
  refine ⟨?_, ?_, ?_, ?_, ?_⟩
  · exact ((formatCountdown_bands 0 9000000).2.2.2.1 (by decide)).trans (by decide)
  · exact ((formatCountdown_bands 0 2700000).2.2.1 (by decide)).trans (by decide)
  · exact (formatCountdown_bands 0 30000).2.1 (by decide)
  · exact (formatCountdown_bands 0 (-1)).1 (by decide)
  · exact ((formatCountdown_bands 0 194400000).2.2.2.2 (by decide)).trans (by decide)

/-- Claim C6: isStale is true iff no last-updated timestamp exists or the
elapsed time strictly exceeds 24 hours; an age of exactly 24 hours is not
stale. -/
theorem isStale_spec (now : Int) :
    isStale now none = true ∧
    (∀ t : Int, isStale now (some t) = true ↔ now - t > 24 * 60 * 60 * 1000) ∧
    (∀ t : Int, isStale (t + 24 * 60 * 60 * 1000) (some t) = false) := by
  refine ⟨rfl, ?_, ?_⟩
  · intro t
    simp [isStale]
  · intro t
    simp [isStale]

/-- Witness for C6: a cache whose age is exactly 24 hours is not stale. -/
theorem isStale_spec_witness : isStale ((0 : Int) + 24 * 60 * 60 * 1000) (some 0) = false :=
  (isStale_spec 0).2.2 0

theorem mergeOne_id (E : List Race) (r : Race) : (mergeOne E r).id = r.id := by
  unfold mergeOne
  cases lastById E r.id <;> rfl

theorem mergeOne_of_lastById_some (E : List Race) (r e : Race)
    (h : lastById E r.id = some e) :
    mergeOne E r = { r with isFavorited := e.isFavorited } := by
  unfold mergeOne
  rw [h]

theorem mergeOne_of_lastById_none (E : List Race) (r : Race)
    (h : lastById E r.id = none) : mergeOne E r = r := by
  unfold mergeOne
  rw [h]

theorem map_congr_mem {α β : Type} (l : List α) (f g : α → β)
    (h : ∀ a ∈ l, f a = g a) : l.map f = l.map g := by
  induction l with
  | nil => rfl
  | cons x xs ih =>
      simp only [List.map_cons]
      rw [h x (List.mem_cons_self x xs), ih (fun a ha => h a (List.mem_cons_of_mem _ ha))]

theorem foldl_step_skip (i : String) (l : List Race) (acc : Option Race)
    (h : ∀ y ∈ l, y.id ≠ i) :
    l.foldl (fun a r => if r.id = i then some r else a) acc = acc := by
  induction l generalizing acc with
  | nil => rfl
  | cons x xs ih =>
      simp only [List.foldl_cons]
      rw [if_neg (h x (List.mem_cons_self x xs))]
      exact ih acc (fun y hy => h y (List.mem_cons_of_mem _ hy))

theorem lastById_map (g : Race → Race) (hg : ∀ r, (g r).id = r.id)
    (l : List Race) (i : String) :
    lastById (l.map g) i = (lastById l i).map g := by
  suffices h : ∀ acc : Option Race,
      (l.map g).foldl (fun a r => if r.id = i then some r else a) (acc.map g) =
        (l.foldl (fun a r => if r.id = i then some r else a) acc).map g by
    simpa [lastById] using h none
  induction l with
  | nil => intro acc; rfl
  | cons x xs ih =>
      intro acc
      simp only [List.map_cons, List.foldl_cons, hg x]
      by_cases hx : x.id = i
      · rw [if_pos hx, if_pos hx]
        simpa using ih (some x)
      · rw [if_neg hx, if_neg hx]
        exact ih acc

theorem lastById_self_of_nodup (F : List Race) (h : (F.map Race.id).Nodup) :
    ∀ r ∈ F, lastById F r.id = some r := by
  induction F with
  | nil => intro r hr; cases hr
  | cons x xs ih =>
      intro r hr
      simp only [List.map_cons, List.nodup_cons] at h
      rcases List.mem_cons.mp hr with rfl | hr2
      · unfold lastById
        simp only [List.foldl_cons, if_pos rfl]
        exact foldl_step_skip r.id xs (some r)
          (fun y hy hyid => h.1 (hyid ▸ List.mem_map.mpr ⟨y, hy, rfl⟩))
      · have hx : x.id ≠ r.id := fun he =>
          h.1 (he ▸ List.mem_map.mpr ⟨r, hr2, rfl⟩)
        unfold lastById
        simp only [List.foldl_cons, if_neg hx]
        exact ih h.2 r hr2

/-- Counterexample to claim C3 as stated over all lists: with an empty
existing list and a fresh list holding two races with the same id but
different isFavorited flags, merging the merge result with the same fresh
list again changes the first entry, so merge(merge(E,F),F) differs from
merge(E,F). -/
theorem merge_not_idempotent_on_duplicate_ids :
    merge (merge [] [mkRace "a" (some true), mkRace "a" (some false)])
        [mkRace "a" (some true), mkRace "a" (some false)] ≠
      merge [] [mkRace "a" (some true), mkRace "a" (some false)] := by
  decide

/-- Claim C3 (amended): merging is idempotent for every existing race list E
and every fresh race list F whose race ids are pairwise distinct:
merge(merge(E,F),F) = merge(E,F). -/
theorem merge_idempotent_of_nodup_ids (E F : List Race)
    (h : (F.map Race.id).Nodup) :
    merge (merge E F) F = merge E F := by
  unfold merge
  apply map_congr_mem
  intro r hr
  have h1 : lastById (F.map (mergeOne E)) r.id = some (mergeOne E r) := by
    rw [lastById_map (mergeOne E) (mergeOne_id E), lastById_self_of_nodup F h r hr]
    rfl
  show mergeOne (F.map (mergeOne E)) r = mergeOne E r
  rw [mergeOne_of_lastById_some _ _ _ h1]
  cases hE : lastById E r.id with
  | none => rw [mergeOne_of_lastById_none E r hE]
  | some e => rw [mergeOne_of_lastById_some E r e hE]

/-- Witness for the amended C3 on a concrete pair of lists with distinct
fresh ids. -/
theorem merge_idempotent_of_nodup_ids_witness :
    merge (merge [mkRace "a" (some true)] [mkRace "a" none, mkRace "b" (some false)])
        [mkRace "a" none, mkRace "b" (some false)] =
      merge [mkRace "a" (some true)] [mkRace "a" none, mkRace "b" (some false)] :=
  merge_idempotent_of_nodup_ids [mkRace "a" (some true)]
    [mkRace "a" none, mkRace "b" (some false)] (by decide)

theorem contains_eq_true_iff (l : List String) (x : String) :
    l.contains x = true ↔ x ∈ l := by
  induction l with
  | nil => simp
  | cons y ys ih => simp

theorem cascadeRemove_subset (ids : List String) (snap : List Favorite) :
    ∀ (st : List Favorite) (g : Favorite), g ∈ cascadeRemove ids snap st → g ∈ st := by
  induction snap with
  | nil => intro st g hg; exact hg
  | cons f fs ih =>
      intro st g hg
      have h1 : g ∈ (if ids.contains f.raceId then st else removeFavorite st f.raceId) :=
        ih _ g hg
      by_cases hc : ids.contains f.raceId
      · rwa [if_pos hc] at h1
      · rw [if_neg hc] at h1
        exact List.mem_of_mem_filter h1

theorem cascadeRemove_removes (ids : List String) (snap : List Favorite) :
    ∀ (st : List Favorite) (f0 : Favorite), f0 ∈ snap →
      ids.contains f0.raceId = false →
      ∀ g ∈ cascadeRemove ids snap st, g.raceId ≠ f0.raceId := by
  induction snap with
  | nil => intro st f0 h; cases h
  | cons f fs ih =>
      intro st f0 hf0 hc g hg
      rcases List.mem_cons.mp hf0 with rfl | hf0b
      · have hst : cascadeRemove ids (f0 :: fs) st =
            cascadeRemove ids fs (removeFavorite st f0.raceId) := by
          show cascadeRemove ids fs
              (if ids.contains f0.raceId then st else removeFavorite st f0.raceId) =
            cascadeRemove ids fs (removeFavorite st f0.raceId)
          rw [hc]
          rfl
        rw [hst] at hg
        have hmem := cascadeRemove_subset ids fs _ g hg
        have hp := (List.mem_filter.mp hmem).2
        simpa using hp
      · have hg2 : g ∈ cascadeRemove ids fs
            (if ids.contains f.raceId then st else removeFavorite st f.raceId) := hg
        exact ih _ f0 hf0b hc g hg2

/-- Claim C4: cascade delete: after mergeWithFavorites, every favorite whose
race id is absent from the fresh race list has been removed from the favorite
store, and every returned race carries favorited status iff its id was in the
pre-merge favorite set. -/
theorem mergeWithFavorites_cascade (existing newRaces : List Race) (favs : List Favorite) :
    (∀ f ∈ favs, (newRaces.map Race.id).contains f.raceId = false →
      ∀ g ∈ (mergeWithFavorites existing newRaces favs).2, g.raceId ≠ f.raceId) ∧
    (∀ r ∈ (mergeWithFavorites existing newRaces favs).1,
      r.isFavorited = some true ↔ r.id ∈ favs.map Favorite.raceId) := by
  constructor
  · intro f hf hc g hg
    exact cascadeRemove_removes (newRaces.map Race.id) favs favs f hf hc g hg
  · intro r hr
    simp only [mergeWithFavorites, List.mem_map] at hr
    obtain ⟨r0, hr0, rfl⟩ := hr
    simp only [Option.some_inj]
    rw [contains_eq_true_iff]

/-- Witness for C4: favorites for race ids x and y, fresh list holding only
race id y; the surviving favorite in the store after the merge is not for x. -/
theorem mergeWithFavorites_cascade_witness :
    ({ raceId := "y", favoritedAt := "t1", notificationEnabled := false } : Favorite).raceId ≠
      "x" :=
  (mergeWithFavorites_cascade [] [mkRace "y" none]
      [{ raceId := "x", favoritedAt := "t0", notificationEnabled := true },
       { raceId := "y", favoritedAt := "t1", notificationEnabled := false }]).1
    { raceId := "x", favoritedAt := "t0", notificationEnabled := true } (by decide) (by decide)
    { raceId := "y", favoritedAt := "t1", notificationEnabled := false } (by decide)

/-- Claim C5 evidence: validateAndTransform accepts a race of category
"weekly" that carries a tier and a repeat interval, and returns it with both
fields present, so the tier / repeat-interval iff of the claim does not hold
for the parser output. -/
theorem validateAndTransform_accepts_weekly_with_tier :
    validateAndTransform testEnv badWeeklyRaw =
      Except.ok { id := "r1", type := "weekly", tier := some "beginner", trackName := "Spa",
                  trackConfiguration := none, carClass := "LMP2",
                  startTime := "2024-03-15T14:30:00Z", durationMinutes := 60,
                  weatherCondition := "Clear", timeOfDay := "Morning",
                  licenseRequirement := "Bronze", repeatInterval := some 40,
                  isLive := false, isFavorited := none } := by
  rfl

theorem parse_error_of_mem (env : DateEnv) (data : List RawRaceData)
    (h : ∃ item ∈ data, ∃ msg, validateAndTransform env item = Except.error msg) :
    ∃ msg, parse env data = Except.error msg := by
  induction data with
  | nil =>
      obtain ⟨item, hmem, _⟩ := h
      cases hmem
  | cons x xs ih =>
      obtain ⟨item, hmem, msg, herr⟩ := h
      rcases List.mem_cons.mp hmem with rfl | hmem2
      · exact ⟨msg, by simp [parse, herr]⟩
      · rcases ih ⟨item, hmem2, msg, herr⟩ with ⟨m2, hm2⟩
        cases hval : validateAndTransform env x with
        | error e => exact ⟨e, by simp [parse, hval]⟩
        | ok r => exact ⟨m2, by simp [parse, hval, hm2]⟩

theorem parse_ok_of_all (env : DateEnv) (data : List RawRaceData)
    (h : ∀ item ∈ data, ∃ r, validateAndTransform env item = Except.ok r) :
    ∃ rs : List Race, parse env data = Except.ok rs ∧ rs.length = data.length ∧
      ∀ (k : Nat) (hk : k < data.length) (hk2 : k < rs.length),
        validateAndTransform env (data.get ⟨k, hk⟩) = Except.ok (rs.get ⟨k, hk2⟩) := by
  induction data with
  | nil =>
      exact ⟨[], rfl, rfl, fun k hk _ => absurd hk (Nat.not_lt_zero k)⟩
  | cons x xs ih =>
      rcases h x (List.mem_cons_self x xs) with ⟨r, hr⟩
      rcases ih (fun it hit => h it (List.mem_cons_of_mem _ hit)) with ⟨rs, hrs, hlen, hpt⟩
      refine ⟨r :: rs, by simp [parse, hr, hrs], by simp [hlen], ?_⟩
      intro k hk hk2
      cases k with
      | zero => simpa using hr
      | succ n => simpa using hpt n (by simpa using hk) (by simpa using hk2)

/-- Claim C7: all-or-nothing ingestion: a batch with at least one invalid
record is rejected as a whole with a validation error; a batch of only valid
records is returned in full, in order. -/
theorem parse_all_or_nothing (env : DateEnv) (data : List RawRaceData) :
    ((∃ item ∈ data, ∃ msg, validateAndTransform env item = Except.error msg) →
      ∃ msg, parse env data = Except.error msg) ∧
    ((∀ item ∈ data, ∃ r, validateAndTransform env item = Except.ok r) →
      ∃ rs : List Race, parse env data = Except.ok rs ∧ rs.length = data.length ∧
        ∀ (k : Nat) (hk : k < data.length) (hk2 : k < rs.length),
          validateAndTransform env (data.get ⟨k, hk⟩) = Except.ok (rs.get ⟨k, hk2⟩)) :=
  ⟨parse_error_of_mem env data, parse_ok_of_all env data⟩

/-- Witness for C7: a one-element batch with a bad enum value is rejected. -/
theorem parse_all_or_nothing_witness :
    ∃ msg, parse testEnv [badTypeRaw] = Except.error msg :=
  (parse_all_or_nothing testEnv [badTypeRaw]).1
    ⟨badTypeRaw, List.mem_singleton.mpr rfl, _, rfl⟩

theorem count_filter_eq {α : Type} [DecidableEq α] (p : α → Bool) (l : List α) (a : α) :
    (l.filter p).count a = if p a = true then l.count a else 0 := by
  induction l with
  | nil => simp
  | cons x xs ih =>
      simp only [List.filter_cons]
      by_cases hx : p x = true
      · simp only [if_pos hx, List.count_cons, ih]
        by_cases hax : a = x
        · subst hax
          simp [hx]
        · have hxa : ¬(x = a) := fun h => hax h.symm
          simp only [beq_iff_eq, if_neg hxa]
          by_cases hpa : p a = true <;> simp [hpa]
      · simp only [if_neg hx, ih]
        by_cases hax : a = x
        · subst hax
          simp [hx, List.count_cons]
        · simp [hax, List.count_cons]

/-- Claim C8: filtering with selector "all" returns the race list unchanged;
filtering with any other concrete selector keeps exactly the races whose
category equals the selector, in their original relative order (a sublist of
the input with matching membership and multiplicities). -/
theorem filterByType_laws (races : List Race) :
    filterByType races "all" = races ∧
    ∀ sel : String, sel ≠ "all" →
      ((filterByType races sel).Sublist races ∧
       (∀ r : Race, r ∈ filterByType races sel ↔ r ∈ races ∧ r.type = sel) ∧
       (∀ r : Race, (filterByType races sel).count r =
          if r.type = sel then races.count r else 0)) := by
  constructor
  · rfl
  · intro sel hsel
    have hb : (sel == "all") = false := beq_eq_false_iff_ne.mpr hsel
    have hdef : filterByType races sel = races.filter (fun race => race.type == sel) := by
      simp [filterByType, hb]
    refine ⟨?_, ?_, ?_⟩
    · rw [hdef]
      exact List.filter_sublist races
    · intro r
      rw [hdef]
      simp [List.mem_filter]
    · intro r
      rw [hdef, count_filter_eq]
      by_cases hr : r.type = sel
      · rw [if_pos hr, if_pos (by simpa using hr)]
      · rw [if_neg hr, if_neg (by simpa using hr)]

/-- Witness for C8 on a concrete list and the selector "daily". -/
theorem filterByType_laws_witness :
    mkRace "a" none ∈ filterByType [mkRace "a" none] "daily" ↔
      mkRace "a" none ∈ [mkRace "a" none] ∧ (mkRace "a" none).type = "daily" :=
  ((filterByType_laws [mkRace "a" none]).2 "daily" (by decide)).2.1 (mkRace "a" none)

/-- Claim C9: the canonical practice policy generates exactly three sessions,
Track Familiarization (30 minutes, 3 days before), Qualifying Simulation (the
configured 45 minutes, 2 days before) and Race Pace (the configured
45 minutes, 1 day before), each with suggestedStart = start − offsetDays×24h,
copying the parent weather and time-of-day descriptors verbatim, and every
suggestedStart strictly precedes the event start. -/
theorem generatePracticeSessions_spec (race : Race) (startMs : Int) :
    (generatePracticeSessions race startMs).length = 3 ∧
    generatePracticeSessions race startMs =
      [ { raceId := race.id, sessionType := "Track Familiarization", durationMinutes := 30,
          scheduleOffsetDays := 3, suggestedStart := startMs - 3 * (24 * 60 * 60 * 1000),
          weatherCondition := race.weatherCondition, timeOfDay := race.timeOfDay },
        { raceId := race.id, sessionType := "Qualifying Simulation", durationMinutes := 45,
          scheduleOffsetDays := 2, suggestedStart := startMs - 2 * (24 * 60 * 60 * 1000),
          weatherCondition := race.weatherCondition, timeOfDay := race.timeOfDay },
        { raceId := race.id, sessionType := "Race Pace", durationMinutes := 45,
          scheduleOffsetDays := 1, suggestedStart := startMs - 1 * (24 * 60 * 60 * 1000),
          weatherCondition := race.weatherCondition, timeOfDay := race.timeOfDay } ] ∧
    ∀ s ∈ generatePracticeSessions race startMs, s.suggestedStart < startMs := by
  refine ⟨rfl, rfl, ?_⟩
  intro s hs
  simp only [generatePracticeSessions, DEFAULT_PRACTICE_SESSIONS, List.map_cons,
    List.map_nil, List.mem_cons, List.not_mem_nil, or_false] at hs
  rcases hs with rfl | rfl | rfl <;> simp

/-- Witness for C9: the first generated session of a concrete race starts
strictly before the race. -/
theorem generatePracticeSessions_spec_witness :
    ({ raceId := "a", sessionType := "Track Familiarization", durationMinutes := 30,
       scheduleOffsetDays := 3, suggestedStart := (0 : Int) - 3 * (24 * 60 * 60 * 1000),
       weatherCondition := "Clear", timeOfDay := "Morning" } : PracticeSession).suggestedStart <
      (0 : Int) :=
  (generatePracticeSessions_spec (mkRace "a" none) 0).2.2
    { raceId := "a", sessionType := "Track Familiarization", durationMinutes := 30,
      scheduleOffsetDays := 3, suggestedStart := (0 : Int) - 3 * (24 * 60 * 60 * 1000),
      weatherCondition := "Clear", timeOfDay := "Morning" } (by decide)

/-- Claim C10: the favorite store never holds two favorites with the same
race id: adding is idempotent per race id, removal removes every favorite
with the given race id, and both operations preserve the uniqueness of the
stored race ids. -/
theorem favorites_unique_invariant :
    (∀ (favs : List Favorite) (f : Favorite),
      favs.any (fun g => g.raceId == f.raceId) = true → addFavorite favs f = favs) ∧
    (∀ (favs : List Favorite) (i : String) (g : Favorite),
      g ∈ removeFavorite favs i → g.raceId ≠ i) ∧
    (∀ (favs : List Favorite) (f : Favorite),
      (favs.map Favorite.raceId).Nodup → ((addFavorite favs f).map Favorite.raceId).Nodup) ∧
    (∀ (favs : List Favorite) (i : String),
      (favs.map Favorite.raceId).Nodup →
        ((removeFavorite favs i).map Favorite.raceId).Nodup) := by
  refine ⟨?_, ?_, ?_, ?_⟩
  · intro favs f h
    simp [addFavorite, h]
  · intro favs i g hg
    simpa using (List.mem_filter.mp hg).2
  · intro favs f h
    by_cases hc : favs.any (fun g => g.raceId == f.raceId) = true
    · simpa [addFavorite, hc] using h
    · have hnot : f.raceId ∉ favs.map Favorite.raceId := by
        intro hmem
        rcases List.mem_map.mp hmem with ⟨g, hg, hgid⟩
        exact hc (List.any_eq_true.mpr ⟨g, hg, by simp [hgid]⟩)
      have : addFavorite favs f = favs ++ [f] := by
        simp [addFavorite, hc]
      rw [this, List.map_append]
      exact h.append (List.nodup_singleton f.raceId)
        (by simpa [List.disjoint_singleton] using hnot)
  · intro favs i h
    exact h.sublist ((List.filter_sublist favs).map Favorite.raceId)

/-- Witness for C10: adding a second favorite for an already-favorited race
id leaves the store unchanged. -/
theorem favorites_unique_invariant_witness :
    addFavorite [{ raceId := "x", favoritedAt := "t0", notificationEnabled := true }]
        { raceId := "x", favoritedAt := "t1", notificationEnabled := false } =
      [{ raceId := "x", favoritedAt := "t0", notificationEnabled := true }] :=
  favorites_unique_invariant.1
    [{ raceId := "x", favoritedAt := "t0", notificationEnabled := true }]
    { raceId := "x", favoritedAt := "t1", notificationEnabled := false } (by decide)

end RaceSync
